import Mathlib

/-! # Verification of the variational implicit process layers

Shallow embedding of `src/layers.py`: the packed lower-triangular covariance
factor, the basis-regression layer (`VIPLayer`), the inducing-point layer
(`VIPLayerInducing`) and the sparse GP layer (`SparseGP`).

Tensors are modelled as functions over `Fin` index types with real entries,
`einsum` contractions as explicit finite sums, and the batched Cholesky /
triangular solves of the inducing-point path as per-output-dimension matrix
algebra: the Cholesky factor `Lu` produced by `torch.linalg.cholesky` is
modelled as a parameter constrained by `choleskySpec` (lower triangular,
positive diagonal, `Lu * Luᵀ` equal to the factorized matrix), and an exact
triangular solve against an invertible factor is multiplication by its
inverse.  Mutable layer attributes (the cached `Lu` and dense `q_sqrt`, the
`requires_grad` flags) are modelled as explicit state records, and Python
attribute errors as `Option`-valued results.
-/

namespace DVIP

open Matrix

/-! ## Triangular packing utilities

`torch.tril_indices(K, K)` enumerates the lower-triangular positions of a
`K × K` matrix row by row: `(0,0), (1,0), (1,1), (2,0), ...`.  `packIdx r c`
is the position of entry `(r, c)` in that enumeration. -/

/-- Row-major position of lower-triangular entry `(r, c)` in the packed layout. -/
def packIdx (r c : ℕ) : ℕ := r * (r + 1) / 2 + c

/-- The `r`-th row of lower-triangular index pairs: `(r,0), …, (r,r)`. -/
def trilRow (r : ℕ) : List (ℕ × ℕ) := (List.range (r + 1)).map fun c => (r, c)

/-- All lower-triangular index pairs of a `K × K` matrix, row-major
(the order produced by `torch.tril_indices(K, K)`). -/
def trilIndices : ℕ → List (ℕ × ℕ)
  | 0 => []
  | K + 1 => trilIndices K ++ trilRow K

/-- Position of the `j`-th diagonal entry inside the packed layout, as the
code computes it: `np.cumsum(np.arange(1, K+1)) - 1` evaluated at `j`. -/
def diagIdx (j : ℕ) : ℕ := (∑ i ∈ Finset.range (j + 1), (i + 1)) - 1

theorem tri_succ (K : ℕ) : (K + 1) * (K + 2) / 2 = K * (K + 1) / 2 + (K + 1) := by
  have h1 : (K + 1) * (K + 2) = K * (K + 1) + 2 * (K + 1) := by ring
  have h2 : 2 ∣ K * (K + 1) := (Nat.even_mul_succ_self K).two_dvd
  omega

theorem length_trilIndices (K : ℕ) : (trilIndices K).length = K * (K + 1) / 2 := by
  induction K with
  | zero => rfl
  | succ K ih =>
      have hrow : (trilRow K).length = K + 1 := by
        simp [trilRow]
      have hs : (K + 1) * (K + 1 + 1) / 2 = K * (K + 1) / 2 + (K + 1) := tri_succ K
      simp [trilIndices, ih, hrow]
      omega

theorem diagIdx_eq_packIdx (j : ℕ) : diagIdx j = packIdx j j := by
  induction j with
  | zero => rfl
  | succ j ih =>
      have hsum : diagIdx (j + 1) = diagIdx j + (j + 2) := by
        unfold diagIdx
        rw [Finset.sum_range_succ]
        have hpos : 1 ≤ ∑ i ∈ Finset.range (j + 1), (i + 1) := by
          calc 1 = ∑ i ∈ Finset.range 1, (i + 1) := by simp
          _ ≤ ∑ i ∈ Finset.range (j + 1), (i + 1) :=
            Finset.sum_le_sum_of_subset (Finset.range_subset.mpr (by omega))
        omega
      have hpack : packIdx (j + 1) (j + 1) = packIdx j j + (j + 2) := by
        unfold packIdx
        have h2 : (j + 1) * (j + 1 + 1) / 2 = j * (j + 1) / 2 + (j + 1) := tri_succ j
        omega
      omega

/-- Unpacking of the packed triangular parameter into a dense `K × K` slice for
output dimension `d`: the code zero-initializes a `(K, K, D)` tensor and writes
`q_sqrt[li, lj] = q_sqrt_tri`, so entry `(s, i)` with `i ≤ s` holds the packed
entry at position `packIdx s i` and strictly-upper entries stay `0`. -/
def unpackTri {D : ℕ} (K : ℕ) (tri : ℕ → Fin D → ℝ) (s i : Fin K) (d : Fin D) : ℝ :=
  if (i : ℕ) ≤ (s : ℕ) then tri (packIdx s i) d else 0

/-- A shape-carrying record for the packed triangular parameter as built by the
constructors (a 2-dimensional array together with its shape). -/
structure PackedParam where
  rows : ℕ
  cols : ℕ
  entry : ℕ → ℕ → ℝ

/-- Construction of `q_sqrt_tri`: `np.eye(K) * v` is tiled to `(K, K, D)` and
indexed with `tril_indices`, i.e. `q_sqrt[li, lj]`, whose numpy result has
shape `(len(li), D)`; entry `(t, d)` is `v` when the `t`-th triangular index
pair lies on the diagonal and `0` otherwise. -/
def mkQSqrtTri (K D : ℕ) (v : ℝ) : PackedParam :=
  { rows := (trilIndices K).length
    cols := D
    entry := fun t _ =>
      if ((trilIndices K).getD t (0, 0)).1 = ((trilIndices K).getD t (0, 0)).2 then v else 0 }

/-! ## VIPLayer: basis-regression forward pass -/

/-- Divisor used to form the regression basis: `sqrt(num_regression_coeffs - 1)`. -/
noncomputable def phiDenom (S : ℕ) : ℝ := Real.sqrt ((S : ℝ) - 1)

/-- Empirical mean of the `S` sampled functions at each point and output
dimension (`torch.mean(f, dim=0)`). -/
noncomputable def empMean {S P D : ℕ} (f : Fin S → Fin P → Fin D → ℝ)
    (p : Fin P) (d : Fin D) : ℝ :=
  (∑ s, f s p d) / (S : ℝ)

/-- Regression basis `phi = (f - mean) / sqrt(S - 1)`. -/
noncomputable def phiOf {S P D : ℕ} (f : Fin S → Fin P → Fin D → ℝ)
    (s : Fin S) (p : Fin P) (d : Fin D) : ℝ :=
  (f s p d - empMean f p d) / phiDenom S

/-- Dense per-output-dimension triangular factor obtained from the packed
parameter (the `q_sqrt[li, lj] = q_sqrt_tri` assignment). -/
def denseQ {D : ℕ} (M : ℕ) (tri : ℕ → Fin D → ℝ) (d : Fin D) :
    Matrix (Fin M) (Fin M) ℝ :=
  fun n m => unpackTri M tri n m d

/-- Predictive mean of `VIPLayer.forward`:
`m + einsum("snd,sd->nd", phi, q_mu)` plus the optional mean function. -/
noncomputable def vipMeanOut {S N D : ℕ} (f : Fin S → Fin N → Fin D → ℝ)
    (q_mu : Fin S → Fin D → ℝ) (mf : Option (Fin N → Fin D → ℝ))
    (n : Fin N) (d : Fin D) : ℝ :=
  empMean f n d + (∑ s, phiOf f s n d * q_mu s d) +
    (match mf with | some g => g n d | none => 0)

/-- The intermediate contraction `einsum("ind, sid -> snd", phi, q_sqrt)`:
`K₁[s,n,d] = ∑ᵢ phi[i,n,d] · q_sqrt[s,i,d]`. -/
noncomputable def vipK1 {S N D : ℕ} (f : Fin S → Fin N → Fin D → ℝ)
    (tri : ℕ → Fin D → ℝ) (s : Fin S) (n : Fin N) (d : Fin D) : ℝ :=
  ∑ i, phiOf f i n d * denseQ S tri d s i

/-- Predictive variance of `VIPLayer.forward`:
`K = sum(K₁ * K₁, dim=0)` plus `exp(log_layer_noise)` when noise is configured. -/
noncomputable def vipVar {S N D : ℕ} (f : Fin S → Fin N → Fin D → ℝ)
    (tri : ℕ → Fin D → ℝ) (noise : Option (Fin D → ℝ))
    (n : Fin N) (d : Fin D) : ℝ :=
  (∑ s, (vipK1 f tri s n d) ^ 2) +
    (match noise with | some v => Real.exp (v d) | none => 0)

/-- Modelled from the spec: the predictive variance as the forward docstring
and the spec state it, the diagonal of `phiᵀ · q_sqrt · q_sqrtᵀ · phi` (the
variance of `phiᵀ a` under `Q(a) = N(q_mu, q_sqrt q_sqrtᵀ)`), plus the
optional noise. -/
noncomputable def vipVarDoc {S N D : ℕ} (f : Fin S → Fin N → Fin D → ℝ)
    (tri : ℕ → Fin D → ℝ) (noise : Option (Fin D → ℝ))
    (n : Fin N) (d : Fin D) : ℝ :=
  (∑ i, ∑ j, phiOf f i n d * (∑ s, denseQ S tri d i s * denseQ S tri d j s) * phiOf f j n d) +
    (match noise with | some v => Real.exp (v d) | none => 0)

/-- Embedding of `VIPLayer.KL()` exactly as the code computes it: the diagonal of the packed
parameter is read at positions `np.cumsum(np.arange(1, S+1)) - 1`, and the four
terms are accumulated in order, with the generative function's KL added when
prior regularization is enabled. -/
noncomputable def klVIP (S D : ℕ) (tri : ℕ → Fin D → ℝ) (q_mu : Fin S → Fin D → ℝ)
    (addPriorReg : Bool) (genKL : ℝ) : ℝ :=
  let kl0 : ℝ := -(1 / 2) * (D : ℝ) * (S : ℝ)
  let kl1 := kl0 - ∑ j : Fin S, ∑ d, Real.log |tri (diagIdx j) d|
  let kl2 := kl1 + (1 / 2) * ∑ t ∈ Finset.range (S * (S + 1) / 2), ∑ d, (tri t d) ^ 2
  let kl3 := kl2 + (1 / 2) * ∑ s, ∑ d, (q_mu s d) ^ 2
  if addPriorReg then kl3 + genKL else kl3

/-! ## Layer state records

The generative function is an external collaborator; the layers only invoke
its sampling call (modelled by passing the drawn samples `f` directly), its
`KL()` (a scalar) and `freeze_parameters()`. -/

/-- External generative function, reduced to the interface the layers use. -/
structure GenFun where
  kl : ℝ

/-- Mutable state of a `VIPLayer`: the variational parameters with their
`requires_grad` flags, the optional fixed log-noise, the prior-regularization
flag and the generative function. -/
structure VIPState (S D : ℕ) where
  q_mu : Fin S → Fin D → ℝ
  q_mu_rg : Bool
  tri : ℕ → Fin D → ℝ
  tri_rg : Bool
  noise : Option (Fin D → ℝ)
  noise_rg : Bool
  addPriorReg : Bool
  genFun : GenFun

/-- Model of `freeze_posterior` of the layers: `q_mu.requires_grad` and
`q_sqrt_tri.requires_grad` are set to `False`, then `if self.log_layer_noise:`
tests Python truthiness of the noise attribute: an absent noise (`None`) is
falsy; a one-element tensor is truthy exactly when its value is nonzero; a
tensor with more than one element raises a RuntimeError (modelled by the
second component being `true`), after the first two flags were already
cleared. -/
noncomputable def vipFreezePosterior {S D : ℕ} (st : VIPState S D) : VIPState S D × Bool :=
  let st1 := { st with q_mu_rg := false, tri_rg := false }
  match st.noise with
  | none => (st1, false)
  | some v =>
    if hD : D = 1 then
      if v ⟨0, by omega⟩ = 0 then (st1, false)
      else ({ st1 with noise_rg := false }, false)
    else (st1, true)

/-! ## Inducing-point conditioning (`VIPLayerInducing` and `SparseGP`)

Matrices are per-output-dimension (`Fin D`-indexed) real matrices.  The
Cholesky factor produced by `torch.linalg.cholesky` is a parameter constrained
by `choleskySpec`; an exact triangular solve is multiplication by the inverse
of the (invertible) triangular factor, and the batched solves of `KL()` are
modelled per output dimension. -/

/-- The `2e-6` jitter added to the empirical/kernel covariance blocks. -/
noncomputable def jitterA : ℝ := 2 / 1000000

/-- The additional `1e-4` jitter added to `Ku` before Cholesky factorization. -/
noncomputable def jitterB : ℝ := 1 / 10000

/-- Lower-triangular predicate: all strictly-upper entries vanish. -/
def lowerTriangularM {M : ℕ} (L : Matrix (Fin M) (Fin M) ℝ) : Prop :=
  ∀ i j : Fin M, i < j → L i j = 0

/-- Positive diagonal predicate. -/
def posDiag {M : ℕ} (L : Matrix (Fin M) (Fin M) ℝ) : Prop :=
  ∀ i, 0 < L i i

/-- Specification of a successful batched Cholesky factorization of `K`:
per output dimension, `Lu` is lower triangular with positive diagonal and
`Lu · Luᵀ = K`. -/
def choleskySpec {M D : ℕ} (Lu K : Fin D → Matrix (Fin M) (Fin M) ℝ) : Prop :=
  ∀ d, lowerTriangularM (Lu d) ∧ posDiag (Lu d) ∧ Lu d * (Lu d)ᵀ = K d

/-- Empirical joint covariance `einsum("and, amd -> nmd", phi, phi)` over the
concatenated data-and-inducing points. -/
noncomputable def empK {S P D : ℕ} (f : Fin S → Fin P → Fin D → ℝ)
    (p q : Fin P) (d : Fin D) : ℝ :=
  ∑ s, phiOf f s p d * phiOf f s q d

/-- Inducing-inducing block `Ku` plus its `2e-6` jitter (the data points come
first in the concatenation, so inducing points are the last `M` indices). -/
noncomputable def KuOf {S N M D : ℕ} (f : Fin S → Fin (N + M) → Fin D → ℝ)
    (d : Fin D) : Matrix (Fin M) (Fin M) ℝ :=
  Matrix.of (fun m1 m2 => empK f (Fin.natAdd N m1) (Fin.natAdd N m2) d) +
    jitterA • (1 : Matrix (Fin M) (Fin M) ℝ)

/-- Data-data block `Kf` plus its `2e-6` jitter. -/
noncomputable def KfOf {S N M D : ℕ} (f : Fin S → Fin (N + M) → Fin D → ℝ)
    (d : Fin D) : Matrix (Fin N) (Fin N) ℝ :=
  Matrix.of (fun n1 n2 => empK f (Fin.castAdd M n1) (Fin.castAdd M n2) d) +
    jitterA • (1 : Matrix (Fin N) (Fin N) ℝ)

/-- Data-inducing cross block `Kfu` (no jitter). -/
noncomputable def KfuOf {S N M D : ℕ} (f : Fin S → Fin (N + M) → Fin D → ℝ)
    (d : Fin D) : Matrix (Fin N) (Fin M) ℝ :=
  Matrix.of fun n m => empK f (Fin.castAdd M n) (Fin.natAdd N m) d

/-- The matrix actually factorized: `Ku + 1e-4 · I`. -/
noncomputable def KuJOf {S N M D : ℕ} (f : Fin S → Fin (N + M) → Fin D → ℝ)
    (d : Fin D) : Matrix (Fin M) (Fin M) ℝ :=
  KuOf f d + jitterB • (1 : Matrix (Fin M) (Fin M) ℝ)

/-- The whitened cross-covariance: two exact triangular solves from the right,
first against `Luᵀ` then against `Lu`, i.e. `A = Kfu · (Luᵀ)⁻¹ · Lu⁻¹`. -/
noncomputable def condA {N M D : ℕ} (Kfu : Fin D → Matrix (Fin N) (Fin M) ℝ)
    (Lu : Fin D → Matrix (Fin M) (Fin M) ℝ) (d : Fin D) : Matrix (Fin N) (Fin M) ℝ :=
  Kfu d * ((Lu d)ᵀ)⁻¹ * (Lu d)⁻¹

/-- Computes `SK = einsum("nmd, bmd -> dnb", q_sqrt, q_sqrt) - Ku`:
entry `(n, b)` is `∑ₘ q_sqrt[n,m]·q_sqrt[b,m] - Ku[n,b]`. -/
noncomputable def condSK {M D : ℕ} (Q Ku : Fin D → Matrix (Fin M) (Fin M) ℝ)
    (d : Fin D) : Matrix (Fin M) (Fin M) ℝ :=
  Matrix.of fun n b => (∑ m, Q d n m * Q d b m) - Ku d n b

/-- Computes `B = einsum("dmb, dnb -> dmn", SK, A)`. -/
noncomputable def condB {N M D : ℕ} (SK : Fin D → Matrix (Fin M) (Fin M) ℝ)
    (A : Fin D → Matrix (Fin N) (Fin M) ℝ) (d : Fin D) (m : Fin M) (n : Fin N) : ℝ :=
  ∑ b, SK d m b * A d n b

/-- Computes `delta_cov = sum(A * B.permute(0, 2, 1), -1)`. -/
noncomputable def condDeltaCov {N M D : ℕ} (Ku Q : Fin D → Matrix (Fin M) (Fin M) ℝ)
    (A : Fin D → Matrix (Fin N) (Fin M) ℝ) (d : Fin D) (n : Fin N) : ℝ :=
  ∑ m, A d n m * condB (condSK Q Ku) A d m n

/-- Predictive variance before the optional noise:
`K = diagonal(Kf) + delta_cov` (lines shared verbatim by
`VIPLayerInducing.forward` and `SparseGP.forward`). -/
noncomputable def condVarCore {N M D : ℕ} (Ku : Fin D → Matrix (Fin M) (Fin M) ℝ)
    (Kf : Fin D → Matrix (Fin N) (Fin N) ℝ) (Kfu : Fin D → Matrix (Fin N) (Fin M) ℝ)
    (Q : Fin D → Matrix (Fin M) (Fin M) ℝ) (Lu : Fin D → Matrix (Fin M) (Fin M) ℝ)
    (n : Fin N) (d : Fin D) : ℝ :=
  Kf d n n + condDeltaCov Ku Q (condA Kfu Lu) d n

/-- Predictive mean `einsum("dnm, md -> nd", A, q_mu)`. -/
noncomputable def condMean {N M D : ℕ} (A : Fin D → Matrix (Fin N) (Fin M) ℝ)
    (q_mu : Fin M → Fin D → ℝ) (n : Fin N) (d : Fin D) : ℝ :=
  ∑ m, A d n m * q_mu m d

/-- Variance of `VIPLayerInducing.forward` before the optional noise. -/
noncomputable def varIndCore {S N M D : ℕ} (f : Fin S → Fin (N + M) → Fin D → ℝ)
    (tri : ℕ → Fin D → ℝ) (Lu : Fin D → Matrix (Fin M) (Fin M) ℝ)
    (n : Fin N) (d : Fin D) : ℝ :=
  condVarCore (KuOf f) (KfOf f) (KfuOf f) (fun d => denseQ M tri d) Lu n d

/-- Modelled from the spec: predictive variance with `SK` as the spec words
it, `q_sqrtᵗ·q_sqrt − Ku` (transpose of the factor times the factor, in that
order), projected through `A`, added to the diagonal of `Kf`. -/
noncomputable def specVarInducing {S N M D : ℕ} (f : Fin S → Fin (N + M) → Fin D → ℝ)
    (tri : ℕ → Fin D → ℝ) (Lu : Fin D → Matrix (Fin M) (Fin M) ℝ)
    (n : Fin N) (d : Fin D) : ℝ :=
  KfOf f d n n +
    (condA (KfuOf f) Lu d *
      Matrix.of (fun a b => (∑ m, denseQ M tri d m a * denseQ M tri d m b) - KuOf f d a b) *
      (condA (KfuOf f) Lu d)ᵀ) n n

/-- The isotropic squared-exponential kernel of `SparseGP`:
`kernel(x1, x2) = exp(log_amplitude) · exp(-‖x1/ℓ - x2/ℓ‖²)` with
`ℓ = exp(log_lengthscale)`; the leading `unsqueeze(0)` broadcasts the same
matrix over all output dimensions. -/
noncomputable def kernelSE {n m ind : ℕ} (logL logA : ℝ)
    (x1 : Fin n → Fin ind → ℝ) (x2 : Fin m → Fin ind → ℝ) : Matrix (Fin n) (Fin m) ℝ :=
  Matrix.of fun i j =>
    Real.exp logA * Real.exp (-(∑ k, (x1 i k / Real.exp logL - x2 j k / Real.exp logL) ^ 2))

/-- Block `Ku` of `SparseGP` (kernel on the inducing points plus `2e-6` jitter). -/
noncomputable def sKu {M ind D : ℕ} (logL logA : ℝ) (Z : Fin M → Fin ind → ℝ)
    (_d : Fin D) : Matrix (Fin M) (Fin M) ℝ :=
  kernelSE logL logA Z Z + jitterA • (1 : Matrix (Fin M) (Fin M) ℝ)

/-- Block `Kf` of `SparseGP` (kernel on the data points plus `2e-6` jitter). -/
noncomputable def sKf {N ind D : ℕ} (logL logA : ℝ) (X : Fin N → Fin ind → ℝ)
    (_d : Fin D) : Matrix (Fin N) (Fin N) ℝ :=
  kernelSE logL logA X X + jitterA • (1 : Matrix (Fin N) (Fin N) ℝ)

/-- Cross block `Kfu` of `SparseGP`. -/
noncomputable def sKfu {N M ind D : ℕ} (logL logA : ℝ) (X : Fin N → Fin ind → ℝ)
    (Z : Fin M → Fin ind → ℝ) (_d : Fin D) : Matrix (Fin N) (Fin M) ℝ :=
  kernelSE logL logA X Z

/-- Factorized matrix `Ku + 1e-4 · I` of `SparseGP`. -/
noncomputable def sKuJ {M ind D : ℕ} (logL logA : ℝ) (Z : Fin M → Fin ind → ℝ)
    (d : Fin D) : Matrix (Fin M) (Fin M) ℝ :=
  sKu logL logA Z d + jitterB • (1 : Matrix (Fin M) (Fin M) ℝ)

/-- Variance of `SparseGP.forward` before the optional noise. -/
noncomputable def varSparseCore {N M ind D : ℕ} (logL logA : ℝ)
    (X : Fin N → Fin ind → ℝ) (Z : Fin M → Fin ind → ℝ) (tri : ℕ → Fin D → ℝ)
    (Lu : Fin D → Matrix (Fin M) (Fin M) ℝ) (n : Fin N) (d : Fin D) : ℝ :=
  condVarCore (sKu logL logA Z) (sKf logL logA X) (sKfu logL logA X Z)
    (fun d => denseQ M tri d) Lu n d

/-! ## KL of the inducing-point layers and the retained state -/

/-- Semantics of the trace-term solve
`torch.linalg.solve_triangular(self.Lu, self.q_sqrt, upper=False)` in the two
`KL()` bodies.  `Lu` has shape `(D, M, M)` — batch `(D,)` — while the dense
`self.q_sqrt` has shape `(M, M, D)`, which torch reads as a batch `(M,)` of
`(M, D)` right-hand sides: batch element `b` is the matrix
`(j, e) ↦ q_sqrt[b, j, e]`, whose columns are the rows of the per-dimension
factors.  The batch shapes `(D,)` and `(M,)` broadcast only when `D = M`
(elementwise pairing), `D = 1` (one factor against every row-slice) or
`M = 1`; any other combination raises a RuntimeError (`none`).  The result is
`0.5 * torch.sum(torch.square(X))` over the solved batch. -/
noncomputable def batchedTraceTerm {M D : ℕ}
    (Lu Qd : Fin D → Matrix (Fin M) (Fin M) ℝ) : Option ℝ :=
  if hDM : D = M then
    some ((1 / 2) * ∑ i : Fin D, ∑ m : Fin M, ∑ e : Fin D,
      (∑ j, (Lu i)⁻¹ m j * Qd e (Fin.cast hDM i) j) ^ 2)
  else if hD : D = 1 then
    some ((1 / 2) * ∑ b : Fin M, ∑ m : Fin M, ∑ e : Fin D,
      (∑ j, (Lu ⟨0, by omega⟩)⁻¹ m j * Qd e b j) ^ 2)
  else if hM : M = 1 then
    some ((1 / 2) * ∑ d : Fin D, ∑ m : Fin M, ∑ e : Fin D,
      (∑ j, (Lu d)⁻¹ m j * Qd e (⟨0, by omega⟩ : Fin M) j) ^ 2)
  else none

/-- Embedding of `VIPLayerInducing.KL()` as a function of the cached factors
and the persistent parameters: diagonal of the packed parameter at the
cumulative-sum positions, log-determinant corrections from both triangular
diagonals, the batched-solve trace term (`none` when that solve raises), and
the mean term `0.5 * sum(q_mu * solve(Lu, q_mu))`, whose `(M, D)` right-hand
side broadcasts against the `(D,)`-batched factor so the elementwise product
and full sum range over both output-dimension axes. -/
noncomputable def klIndFormula {M D : ℕ} (Lu Qd : Fin D → Matrix (Fin M) (Fin M) ℝ)
    (tri : ℕ → Fin D → ℝ) (q_mu : Fin M → Fin D → ℝ) : Option ℝ :=
  (batchedTraceTerm Lu Qd).map fun trace =>
    -(1 / 2) * (D : ℝ) * (M : ℝ)
    - (∑ j : Fin M, ∑ d, Real.log |tri (diagIdx j) d|)
    + (∑ d, ∑ m, Real.log |Lu d m m|)
    + trace
    + (1 / 2) * (∑ d, ∑ m, ∑ e,
        q_mu m e * ((Lu d)⁻¹ * Matrix.of (fun i w => q_mu i w)) m e)

/-- Formula part of `SparseGP.KL()`: the source duplicates the body of
`VIPLayerInducing.KL()` verbatim, so this is the same expression — including
the batched-solve semantics — kept as a separate definition mirroring the
duplicated source. -/
noncomputable def sparseKLFormula {M D : ℕ} (Lu Qd : Fin D → Matrix (Fin M) (Fin M) ℝ)
    (tri : ℕ → Fin D → ℝ) (q_mu : Fin M → Fin D → ℝ) : Option ℝ :=
  (batchedTraceTerm Lu Qd).map fun trace =>
    -(1 / 2) * (D : ℝ) * (M : ℝ)
    - (∑ j : Fin M, ∑ d, Real.log |tri (diagIdx j) d|)
    + (∑ d, ∑ m, Real.log |Lu d m m|)
    + trace
    + (1 / 2) * (∑ d, ∑ m, ∑ e,
        q_mu m e * ((Lu d)⁻¹ * Matrix.of (fun i w => q_mu i w)) m e)

/-- Mutable state of a `VIPLayerInducing`: persistent parameters plus the
`Lu` and dense `q_sqrt` attributes written by `forward` (absent before the
first call). -/
structure VIPIndState (M D : ℕ) where
  q_mu : Fin M → Fin D → ℝ
  tri : ℕ → Fin D → ℝ
  addPriorReg : Bool
  genFun : GenFun
  noise : Option (Fin D → ℝ)
  LuC : Option (Fin D → Matrix (Fin M) (Fin M) ℝ)
  qC : Option (Fin D → Matrix (Fin M) (Fin M) ℝ)

/-- Constructor `VIPLayerInducing.__init__`: no `Lu`/dense `q_sqrt` attributes exist yet. -/
def mkVIPIndState {M D : ℕ} (q_mu : Fin M → Fin D → ℝ) (tri : ℕ → Fin D → ℝ)
    (flag : Bool) (g : GenFun) (noise : Option (Fin D → ℝ)) : VIPIndState M D :=
  ⟨q_mu, tri, flag, g, noise, none, none⟩

/-- Embedding of `VIPLayerInducing.forward`: returns the predictive mean and variance and
the updated state, on which `self.Lu` and `self.q_sqrt` now hold this call's
Cholesky factor and dense unpacked triangular parameter.  The samples `f` are
the generative function's joint draw at the data and inducing points, `mf` the
optional mean function evaluated on the batch, and `Lu` the factor produced by
the (successful) Cholesky factorization. -/
noncomputable def vipIndForward {S N M D : ℕ} (st : VIPIndState M D)
    (f : Fin S → Fin (N + M) → Fin D → ℝ) (mf : Option (Fin N → Fin D → ℝ))
    (Lu : Fin D → Matrix (Fin M) (Fin M) ℝ) :
    (Fin N → Fin D → ℝ) × (Fin N → Fin D → ℝ) × VIPIndState M D :=
  let A := condA (KfuOf f) Lu
  let mean := fun n d => condMean A st.q_mu n d +
    (match mf with | some g => g n d | none => 0)
  let var := fun n d => varIndCore f st.tri Lu n d +
    (match st.noise with | some v => Real.exp (v d) | none => 0)
  (mean, var, { st with LuC := some Lu, qC := some (fun d => denseQ M st.tri d) })

/-- Embedding of `VIPLayerInducing.KL()`: reads `self.Lu` and `self.q_sqrt`; on a fresh
layer these attributes are absent and the call raises an `AttributeError`
(modelled by `none`); with both cached, the result is the formula built from
them — itself `none` when the batched solve raises. -/
noncomputable def vipIndKL {M D : ℕ} (st : VIPIndState M D) : Option ℝ :=
  match st.LuC, st.qC with
  | some Lu, some Qd =>
      (klIndFormula Lu Qd st.tri st.q_mu).map fun v =>
        v + (if st.addPriorReg then st.genFun.kl else 0)
  | _, _ => none

/-- Mutable state of a `SparseGP`: persistent parameters, the kernel
hyperparameters, the cached factors, and the (never-assigned) generative
function attribute. -/
structure SparseGPState (M ind D : ℕ) where
  Z : Fin M → Fin ind → ℝ
  q_mu : Fin M → Fin D → ℝ
  tri : ℕ → Fin D → ℝ
  addPriorReg : Bool
  noise : Option (Fin D → ℝ)
  logLengthscale : ℝ
  logAmplitude : ℝ
  genFun : Option GenFun
  LuC : Option (Fin D → Matrix (Fin M) (Fin M) ℝ)
  qC : Option (Fin D → Matrix (Fin M) (Fin M) ℝ)

/-- Constructor `SparseGP.__init__`: accepts a `generative_function` argument but never
assigns it to the instance, so the attribute is absent (`none`); the kernel
log-hyperparameters are initialized to `0`. -/
def mkSparseGP {M ind D : ℕ} (_g : GenFun) (Z : Fin M → Fin ind → ℝ)
    (q_mu : Fin M → Fin D → ℝ) (tri : ℕ → Fin D → ℝ) (flag : Bool)
    (noise : Option (Fin D → ℝ)) : SparseGPState M ind D :=
  { Z := Z, q_mu := q_mu, tri := tri, addPriorReg := flag, noise := noise,
    logLengthscale := 0, logAmplitude := 0, genFun := none, LuC := none, qC := none }

/-- Embedding of `SparseGP.forward`: same conditioning as the inducing layer with
kernel-produced covariance blocks; caches `Lu` and the dense `q_sqrt`. -/
noncomputable def sparseForward {N M ind D : ℕ} (st : SparseGPState M ind D)
    (X : Fin N → Fin ind → ℝ) (mf : Option (Fin N → Fin D → ℝ))
    (Lu : Fin D → Matrix (Fin M) (Fin M) ℝ) :
    (Fin N → Fin D → ℝ) × (Fin N → Fin D → ℝ) × SparseGPState M ind D :=
  let A := condA (sKfu st.logLengthscale st.logAmplitude X st.Z) Lu
  let mean := fun n d => condMean A st.q_mu n d +
    (match mf with | some g => g n d | none => 0)
  let var := fun n d => varSparseCore st.logLengthscale st.logAmplitude X st.Z st.tri Lu n d +
    (match st.noise with | some v => Real.exp (v d) | none => 0)
  (mean, var, { st with LuC := some Lu, qC := some (fun d => denseQ M st.tri d) })

/-- Embedding of `SparseGP.KL()`: reads `self.Lu` and `self.q_sqrt` (absent before the
first `forward`), runs the batched triangular solves (whose failure aborts the
call first), then accesses `self.generative_function.KL()` when prior
regularization is enabled — an attribute `__init__` never assigned. -/
noncomputable def sparseKL {M ind D : ℕ} (st : SparseGPState M ind D) : Option ℝ :=
  match st.LuC, st.qC with
  | some Lu, some Qd =>
      (sparseKLFormula Lu Qd st.tri st.q_mu).bind fun v =>
        if st.addPriorReg then st.genFun.map fun g => v + g.kl
        else some v
  | _, _ => none

/-- Model of `SparseGP.freeze_prior()`: calls `self.generative_function.freeze_parameters()`;
the attribute access fails (`none`) when the attribute was never assigned. -/
def sparseFreezePrior {M ind D : ℕ} (st : SparseGPState M ind D) : Option Unit :=
  st.genFun.map fun _ => ()

/-! ## Concrete instances used in the evaluations -/

/-- Three basis draws `2, 0, -2` at a single point, one output dimension. -/
def fC1 : Fin 3 → Fin 1 → Fin 1 → ℝ := fun s _ _ => ![2, 0, -2] s

/-- Packed parameter holding the lower-triangular factor
`[[1,0,0],[1,1,0],[0,0,1]]` in row-major packing `(1,1,1,0,0,1)`. -/
def triC1 : ℕ → Fin 1 → ℝ := fun t _ => if t = 0 ∨ t = 1 ∨ t = 2 ∨ t = 5 then 1 else 0

/-- The spec's concrete scenario: samples `[[1],[2]], [[3],[4]], [[5],[6]]`
stacked over `S = 3` at two points. -/
def fC6 : Fin 3 → Fin 2 → Fin 1 → ℝ := fun s n _ => ![![1, 2], ![3, 4], ![5, 6]] s n

/-- The packed parameter at its initial value: the packing of the `3 × 3`
identity (initial scale `1`), read from the constructor's construction. -/
def triC6 : ℕ → Fin 1 → ℝ := fun t _ => (mkQSqrtTri 3 1 1).entry t 0

/-- Joint samples at one data point and two inducing points (`S = 3`): the
draws agree at the data point and the first inducing point and are constant
zero at the second inducing point. -/
def fC2 : Fin 3 → Fin (1 + 2) → Fin 1 → ℝ := fun s p _ => ![![1, 1, 0], ![2, 2, 0], ![3, 3, 0]] s p

/-- Packed parameter `(1, 1, 1)`, i.e. the dense factor `[[1,0],[1,1]]`. -/
def triC2 : ℕ → Fin 1 → ℝ := fun t _ => if t ≤ 2 then 1 else 0

/-- First diagonal entry of the factorized `Ku + 1e-4·I` in the C2 instance. -/
noncomputable def aC2 : ℝ := 1 + jitterA + jitterB

/-- Second diagonal entry of the factorized `Ku + 1e-4·I` in the C2 instance. -/
noncomputable def gC2 : ℝ := jitterA + jitterB

/-- The (diagonal) Cholesky factor of `Ku + 1e-4·I` for the C2 instance. -/
noncomputable def LuC2 : Fin 1 → Matrix (Fin 2) (Fin 2) ℝ :=
  fun _ => Matrix.diagonal ![Real.sqrt aC2, Real.sqrt gC2]

/-- Single inducing location at the origin for the sparse-GP instance. -/
def ZC2s : Fin 1 → Fin 1 → ℝ := fun _ _ => 0

/-- Cholesky factor of the sparse-GP `Ku + 1e-4·I` at unit kernel values. -/
noncomputable def LuC2s : Fin 1 → Matrix (Fin 1) (Fin 1) ℝ :=
  fun _ => Matrix.diagonal ![Real.sqrt aC2]

/-- Layer state with one output dimension and configured log-noise `0.0`. -/
noncomputable def stC8 : VIPState 1 1 :=
  { q_mu := fun _ _ => 0, q_mu_rg := true, tri := fun _ _ => 1, tri_rg := true,
    noise := some fun _ => 0, noise_rg := true, addPriorReg := false, genFun := ⟨0⟩ }

/-- Layer state with two output dimensions and a configured log-noise. -/
noncomputable def stC8b : VIPState 1 2 :=
  { q_mu := fun _ _ => 0, q_mu_rg := true, tri := fun _ _ => 1, tri_rg := true,
    noise := some fun _ => 1, noise_rg := true, addPriorReg := false, genFun := ⟨0⟩ }

/-- Cached factor shared by the C5 state pair. -/
noncomputable def LuC5 : Fin 1 → Matrix (Fin 1) (Fin 1) ℝ := fun _ => 1

/-- Inducing-layer state after a forward call, prior regularization enabled. -/
noncomputable def stIndC5 : VIPIndState 1 1 :=
  { q_mu := fun _ _ => 0, tri := fun _ _ => 1, addPriorReg := true, genFun := ⟨0⟩,
    noise := none, LuC := some LuC5, qC := some fun d => denseQ 1 (fun _ _ => 1) d }

/-- Sparse-GP state with the same components, prior regularization enabled. -/
noncomputable def stSparseC5 : SparseGPState 1 1 1 :=
  { Z := fun _ _ => 0, q_mu := fun _ _ => 0, tri := fun _ _ => 1, addPriorReg := true,
    noise := none, logLengthscale := 0, logAmplitude := 0, genFun := none,
    LuC := some LuC5, qC := some fun d => denseQ 1 (fun _ _ => 1) d }

/-! ## Claim theorems -/

/-- C10: `VIPLayer.forward` divides the centered samples by
`sqrt(num_regression_coeffs - 1)` with the construction-time coefficient
count; that divisor is `0` when the layer was built with a single regression
coefficient, and is strictly positive — so the zero-divisor case is
unreachable — whenever at least two coefficients are configured. -/
theorem c10_phi_divisor :
    phiDenom 1 = 0 ∧
    (∀ S : ℕ, 2 ≤ S → 0 < phiDenom S) ∧
    (∀ (S N D : ℕ) (f : Fin S → Fin N → Fin D → ℝ) (s : Fin S) (n : Fin N) (d : Fin D),
      phiOf f s n d = (f s n d - empMean f n d) / phiDenom S) := by
  refine ⟨by unfold phiDenom; norm_num, fun S hS => ?_, fun S N D f s n d => rfl⟩
  unfold phiDenom
  apply Real.sqrt_pos.mpr
  have h2 : (2 : ℝ) ≤ (S : ℝ) := by exact_mod_cast hS
  linarith

/-- C10 witness: at three coefficients the divisor is strictly positive. -/
theorem c10_phi_divisor_witness : phiDenom 1 = 0 ∧ 0 < phiDenom 3 :=
  ⟨c10_phi_divisor.1, c10_phi_divisor.2.1 3 (by norm_num)⟩

/-- C4 counterexample: with `K = 3` basis functions and `D = 2` output
dimensions the packed triangular parameter is built with shape `(6, 2)`, not
the claimed `(D, K(K+1)/2) = (2, 6)`. -/
theorem c4_shape_counterexample :
    ¬ ((mkQSqrtTri 3 2 1).rows = 2 ∧ (mkQSqrtTri 3 2 1).cols = 6) := by
  decide

/-- C4 (amended): the packed triangular parameter is built with shape
`(K(K+1)/2, D)` for all independently chosen `K` and `D` (numpy advanced
indexing `q_sqrt[li, lj]` puts the triangle axis first), and the layer
operations never rewrite the packed parameter. -/
theorem c4_packed_shape :
    (∀ (K D : ℕ) (v : ℝ),
      (mkQSqrtTri K D v).rows = K * (K + 1) / 2 ∧ (mkQSqrtTri K D v).cols = D) ∧
    (∀ (S D : ℕ) (st : VIPState S D), (vipFreezePosterior st).1.tri = st.tri) ∧
    (∀ (S N M D : ℕ) (st : VIPIndState M D) (f : Fin S → Fin (N + M) → Fin D → ℝ)
      (mf : Option (Fin N → Fin D → ℝ)) (Lu : Fin D → Matrix (Fin M) (Fin M) ℝ),
      (vipIndForward st f mf Lu).2.2.tri = st.tri) ∧
    (∀ (N M ind D : ℕ) (st : SparseGPState M ind D) (X : Fin N → Fin ind → ℝ)
      (mf : Option (Fin N → Fin D → ℝ)) (Lu : Fin D → Matrix (Fin M) (Fin M) ℝ),
      (sparseForward st X mf Lu).2.2.tri = st.tri) := by
  refine ⟨fun K D v => ⟨length_trilIndices K, rfl⟩, fun S D st => ?_,
    fun S N M D st f mf Lu => rfl, fun N M ind D st X mf Lu => rfl⟩
  unfold vipFreezePosterior
  cases st.noise with
  | none => rfl
  | some v =>
      simp only
      split_ifs <;> rfl

/-- C9: `SparseGP.__init__` never stores the generative function it receives,
so `freeze_prior()` always fails with an attribute error, and `KL()` fails
whenever prior regularization was enabled at construction, even right after a
`forward` call has cached the factors. -/
theorem inv_diag12 : (Matrix.diagonal ![(1 : ℝ), 2])⁻¹ = Matrix.diagonal ![1, (2 : ℝ)⁻¹] := by
  apply Matrix.inv_eq_right_inv
  rw [Matrix.diagonal_mul_diagonal]
  ext i j
  fin_cases i <;> fin_cases j <;> norm_num [Matrix.diagonal_apply, Matrix.one_apply]

/-- Validation of the batched-solve semantics at one output dimension: with
`Lu = diag(1, 2)` and dense factor `[[1,0],[1,1]]`, the right-hand-side batch
elements are the factor's rows, so the trace term is
`½‖Lu⁻¹·q_sqrtᵀ‖² = 9/8` — not the per-output-dimension reading
`½‖Lu⁻¹·q_sqrt‖² = 3/4`. -/
theorem batchedTraceTerm_row_batches :
    batchedTraceTerm (fun _ : Fin 1 => Matrix.diagonal ![(1 : ℝ), 2])
      (fun _ => Matrix.of ![![1, 0], ![1, 1]]) = some (9 / 8) := by
  unfold batchedTraceTerm
  rw [dif_neg (by omega), dif_pos rfl]
  simp only [inv_diag12]
  norm_num [Fin.sum_univ_two, Fin.sum_univ_one, Matrix.diagonal_apply, Matrix.of_apply]

theorem option_bind_fun_none {α β : Type} (x : Option α) :
    (x.bind fun _ => (none : Option β)) = none := by
  cases x <;> rfl

theorem c9_sparse_missing_genfun :
    (∀ (M ind D : ℕ) (g : GenFun) (Z : Fin M → Fin ind → ℝ) (q_mu : Fin M → Fin D → ℝ)
      (tri : ℕ → Fin D → ℝ) (flag : Bool) (noise : Option (Fin D → ℝ)),
      (mkSparseGP g Z q_mu tri flag noise).genFun = none ∧
      sparseFreezePrior (mkSparseGP g Z q_mu tri flag noise) = none) ∧
    (∀ (N M ind D : ℕ) (g : GenFun) (Z : Fin M → Fin ind → ℝ) (q_mu : Fin M → Fin D → ℝ)
      (tri : ℕ → Fin D → ℝ) (noise : Option (Fin D → ℝ)) (X : Fin N → Fin ind → ℝ)
      (mf : Option (Fin N → Fin D → ℝ)) (Lu : Fin D → Matrix (Fin M) (Fin M) ℝ),
      sparseKL ((sparseForward (mkSparseGP g Z q_mu tri true noise) X mf Lu).2.2) = none) := by
  exact ⟨fun M ind D g Z q_mu tri flag noise => ⟨rfl, rfl⟩,
    fun N M ind D g Z q_mu tri noise X mf Lu =>
      option_bind_fun_none (sparseKLFormula Lu (fun d => denseQ M tri d) tri q_mu)⟩

/-- C7: `VIPLayerInducing.KL()` on a freshly constructed layer fails (the
`Lu` and dense `q_sqrt` attributes are absent before any `forward`), and after
a `forward` call its result is computed from exactly that call's Cholesky
factor and dense unpacked triangular parameter, together with the persistent
parameters — the KL formula (including its batched-solve error case) applied
to the factors the forward just cached. -/
theorem c7_kl_uses_cached_factors :
    (∀ (M D : ℕ) (q_mu : Fin M → Fin D → ℝ) (tri : ℕ → Fin D → ℝ) (flag : Bool)
      (g : GenFun) (noise : Option (Fin D → ℝ)),
      vipIndKL (mkVIPIndState q_mu tri flag g noise) = none) ∧
    (∀ (S N M D : ℕ) (st : VIPIndState M D) (f : Fin S → Fin (N + M) → Fin D → ℝ)
      (mf : Option (Fin N → Fin D → ℝ)) (Lu : Fin D → Matrix (Fin M) (Fin M) ℝ),
      vipIndKL ((vipIndForward st f mf Lu).2.2) =
        (klIndFormula Lu (fun d => denseQ M st.tri d) st.tri st.q_mu).map
          (fun v => v + (if st.addPriorReg then st.genFun.kl else 0))) := by
  exact ⟨fun M D q_mu tri flag g noise => rfl, fun S N M D st f mf Lu => rfl⟩

/-- C5 counterexample: with identical `q_mu`, packed parameter, cached factors
and the prior-regularization flag enabled, `SparseGP.KL()` fails (its
generative-function attribute was never assigned) while
`VIPLayerInducing.KL()` returns a value, so the two implementations disagree
on this state. -/
theorem c5_counterexample : sparseKL stSparseC5 = none ∧ vipIndKL stIndC5 ≠ none := by
  exact ⟨option_bind_fun_none (sparseKLFormula LuC5 (fun d => denseQ 1 (fun _ _ => 1) d)
      (fun _ _ => 1) (fun _ _ => 0)),
    by simp [vipIndKL, stIndC5, klIndFormula, batchedTraceTerm]⟩

/-- C5 (amended): on identical states — same `q_mu`, packed parameter, cached
`Lu` and dense `q_sqrt`, output dimension and inducing count — with the
prior-regularization flag disabled, `SparseGP.KL()` and
`VIPLayerInducing.KL()` return equal values; with the flag enabled the sparse
variant instead fails, because its generative-function attribute is absent. -/
theorem c5_kl_agree_without_prior_reg :
    ∀ (M ind D : ℕ) (Z : Fin M → Fin ind → ℝ) (q_mu : Fin M → Fin D → ℝ)
      (tri : ℕ → Fin D → ℝ) (g : GenFun) (noiseI noiseS : Option (Fin D → ℝ))
      (logL logA : ℝ) (Lu Qd : Fin D → Matrix (Fin M) (Fin M) ℝ),
      sparseKL { Z := Z, q_mu := q_mu, tri := tri, addPriorReg := false, noise := noiseS,
                 logLengthscale := logL, logAmplitude := logA, genFun := none,
                 LuC := some Lu, qC := some Qd } =
      vipIndKL { q_mu := q_mu, tri := tri, addPriorReg := false, genFun := g,
                 noise := noiseI, LuC := some Lu, qC := some Qd } := by
  intro M ind D Z q_mu tri g noiseI noiseS logL logA Lu Qd
  cases h : batchedTraceTerm Lu Qd <;>
    simp [sparseKL, vipIndKL, sparseKLFormula, klIndFormula, h]

/-- C8: the claim matches the intended behaviour, but `freeze_posterior` in
the code guards the noise flag with `if self.log_layer_noise:` — Python
truthiness of the parameter tensor — instead of an `is not None` check: with
one output dimension and configured log-noise value `0.0` the noise parameter
is left trainable (while `q_mu` and `q_sqrt_tri` are frozen), and with more
than one output dimension the call raises instead of returning. -/
theorem c8_freeze_noise_eval :
    ((vipFreezePosterior stC8).1.q_mu_rg = false ∧
     (vipFreezePosterior stC8).1.tri_rg = false ∧
     (vipFreezePosterior stC8).1.noise_rg = true ∧
     (vipFreezePosterior stC8).2 = false) ∧
    ((vipFreezePosterior stC8b).1.noise_rg = true ∧
     (vipFreezePosterior stC8b).2 = true) := by
  constructor
  · refine ⟨?_, ?_, ?_, ?_⟩ <;> simp [vipFreezePosterior, stC8]
  · constructor <;> simp [vipFreezePosterior, stC8b]

/-- C3: `VIPLayer.KL()` returns exactly
`-½·D·S - Σ log|diag(q_sqrt)| + ½·Σ q_sqrt_packed² + ½·Σ q_mu²`, with the
diagonal of the unpacked triangular factor read from the packed array at the
cumulative-sum positions `cumsum(1..j+1) - 1` (these are exactly the diagonal
positions of the row-major packing), plus the generative function's KL if and
only if prior regularization is enabled. -/
theorem c3_klVIP_closed_form (S D : ℕ) (tri : ℕ → Fin D → ℝ) (q_mu : Fin S → Fin D → ℝ)
    (genKL : ℝ) (h : ∀ (j : Fin S) (d : Fin D), tri (diagIdx j) d ≠ 0) (flag : Bool) :
    klVIP S D tri q_mu flag genKL =
      -(1 / 2) * (D : ℝ) * (S : ℝ)
      - (∑ j : Fin S, ∑ d, Real.log |unpackTri S tri j j d|)
      + (1 / 2) * (∑ t ∈ Finset.range (S * (S + 1) / 2), ∑ d, (tri t d) ^ 2)
      + (1 / 2) * (∑ s, ∑ d, (q_mu s d) ^ 2)
      + (if flag then genKL else 0) := by
  have hd : ∀ (j : Fin S) (d : Fin D), unpackTri S tri j j d = tri (diagIdx j) d := by
    intro j d
    unfold unpackTri
    rw [if_pos (le_refl _), diagIdx_eq_packIdx]
  simp only [klVIP, hd]
  cases flag <;> simp

/-- C3 witness: a one-coefficient, one-output state with unit diagonal. -/
theorem c3_klVIP_witness :
    (∀ (j : Fin 1) (d : Fin 1), (fun (_ : ℕ) (_ : Fin 1) => (1 : ℝ)) (diagIdx j) d ≠ 0) ∧
    klVIP 1 1 (fun _ _ => 1) (fun _ _ => 0) false 0 =
      -(1 / 2) * ((1 : ℕ) : ℝ) * ((1 : ℕ) : ℝ)
      - (∑ j : Fin 1, ∑ d : Fin 1,
          Real.log |unpackTri 1 (fun (_ : ℕ) (_ : Fin 1) => (1 : ℝ)) j j d|)
      + (1 / 2) * (∑ t ∈ Finset.range (1 * (1 + 1) / 2), ∑ d : Fin 1, ((1 : ℝ)) ^ 2)
      + (1 / 2) * (∑ s : Fin 1, ∑ d : Fin 1, ((0 : ℝ)) ^ 2)
      + (if false then (0 : ℝ) else 0) :=
  have h : ∀ (j : Fin 1) (d : Fin 1), (fun (_ : ℕ) (_ : Fin 1) => (1 : ℝ)) (diagIdx j) d ≠ 0 :=
    fun _ _ => one_ne_zero
  ⟨h, c3_klVIP_closed_form 1 1 (fun _ _ => 1) (fun _ _ => 0) 0 h false⟩

theorem phiDenom_three : phiDenom 3 = Real.sqrt 2 := by
  unfold phiDenom; norm_num

theorem denseQ_triC6 : ∀ s i : Fin 3, denseQ 3 triC6 0 s i = if s = i then 1 else 0 := by
  intro s i
  fin_cases s <;> fin_cases i <;> rfl

theorem empMean_fC6 : ∀ n : Fin 2, empMean fC6 n 0 = ![3, 4] n := by
  intro n
  fin_cases n <;> simp [empMean, fC6, Fin.sum_univ_three] <;> norm_num

theorem phiOf_fC6 : ∀ (s : Fin 3) (n : Fin 2),
    phiOf fC6 s n 0 = (fC6 s n 0 - ![3, 4] n) / Real.sqrt 2 := by
  intro s n
  unfold phiOf
  rw [empMean_fC6, phiDenom_three]

/-- C6: in the spec's concrete scenario — `S = 3` coefficients, two points,
one output, no noise and no mean function, `q_mu = 0` and `q_sqrt` initialized
to the (packed) identity, samples `[[1],[2]], [[3],[4]], [[5],[6]]` — the
forward pass returns predictive mean exactly `[3, 4]` and predictive variance
`[4, 4]`, the unbiased sample variance of `{1,3,5}` and `{2,4,6}`. -/
theorem c6_concrete_scenario :
    ∀ n : Fin 2, vipMeanOut fC6 (fun _ _ => 0) none n 0 = ![3, 4] n ∧
      vipVar fC6 triC6 none n 0 = 4 := by
  intro n
  constructor
  · unfold vipMeanOut
    rw [empMean_fC6]
    simp
  · have hk : ∀ s : Fin 3, vipK1 fC6 triC6 s n 0 = (fC6 s n 0 - ![3, 4] n) / Real.sqrt 2 := by
      intro s
      unfold vipK1
      fin_cases s <;> simp [Fin.sum_univ_three, denseQ_triC6, phiOf_fC6]
    unfold vipVar
    simp only [Fin.sum_univ_three, hk]
    fin_cases n <;>
      · simp [fC6]
        simp only [div_pow, Real.sq_sqrt (by norm_num : (0:ℝ) ≤ 2)]
        norm_num

theorem denseQ_triC1 :
    ∀ s i : Fin 3, denseQ 3 triC1 0 s i = ![![1, 0, 0], ![1, 1, 0], ![0, 0, 1]] s i := by
  intro s i
  fin_cases s <;> fin_cases i <;> rfl

theorem empMean_fC1 : empMean fC1 0 0 = 0 := by
  simp [empMean, fC1, Fin.sum_univ_three]

theorem phiOf_fC1 : ∀ s : Fin 3, phiOf fC1 s 0 0 = ![2, 0, -2] s / Real.sqrt 2 := by
  intro s
  unfold phiOf
  rw [empMean_fC1, phiDenom_three]
  simp [fC1]

/-- C1: at the concrete state with `S = 3` basis draws `2, 0, -2` at one
point, one output dimension, packed factor `(1,1,1,0,0,1)` (the
lower-triangular `[[1,0,0],[1,1,0],[0,0,1]]`) and no noise, the variance
`VIPLayer.forward` returns is `6` — the diagonal of `phiᵀ·q_sqrtᵀ·q_sqrt·phi`
— whereas the formula claimed (and stated by the forward docstring),
`diag(phiᵀ·q_sqrt·q_sqrtᵀ·phi)`, evaluates to `4`: the code contracts `phi`
against the factor rows instead of its columns. -/
theorem c1_variance_transposed :
    vipVar fC1 triC1 none 0 0 = 6 ∧ vipVarDoc fC1 triC1 none 0 0 = 4 := by
  have hs : Real.sqrt 2 * Real.sqrt 2 = 2 := Real.mul_self_sqrt (by norm_num)
  constructor
  · have hk0 : vipK1 fC1 triC1 0 0 0 = 2 / Real.sqrt 2 := by
      unfold vipK1
      simp [Fin.sum_univ_three, denseQ_triC1, phiOf_fC1]
    have hk1 : vipK1 fC1 triC1 1 0 0 = 2 / Real.sqrt 2 := by
      unfold vipK1
      simp [Fin.sum_univ_three, denseQ_triC1, phiOf_fC1]
    have hk2 : vipK1 fC1 triC1 2 0 0 = -2 / Real.sqrt 2 := by
      unfold vipK1
      simp [Fin.sum_univ_three, denseQ_triC1, phiOf_fC1]
    unfold vipVar
    simp only [Fin.sum_univ_three, hk0, hk1, hk2]
    simp only [div_pow, Real.sq_sqrt (by norm_num : (0:ℝ) ≤ 2)]
    norm_num
  · unfold vipVarDoc
    simp only [Fin.sum_univ_three, denseQ_triC1, phiOf_fC1]
    simp only [Matrix.cons_val_zero, Matrix.cons_val_one, Matrix.head_cons,
      Matrix.cons_val_two, Matrix.tail_cons]
    field_simp
    nlinarith [hs]

theorem condDeltaCov_matrix {N M D : ℕ} (Ku Q : Fin D → Matrix (Fin M) (Fin M) ℝ)
    (A : Fin D → Matrix (Fin N) (Fin M) ℝ) (d : Fin D) (n : Fin N) :
    condDeltaCov Ku Q A d n = (A d * (Q d * (Q d)ᵀ - Ku d) * (A d)ᵀ) n n := by
  unfold condDeltaCov condB condSK
  simp only [Matrix.mul_apply, Matrix.sub_apply, Matrix.transpose_apply, Matrix.of_apply,
    Finset.sum_mul, Finset.mul_sum]
  rw [Finset.sum_comm]
  apply Finset.sum_congr rfl
  intro b _
  apply Finset.sum_congr rfl
  intro m _
  ring

/-- C2 (amended): whenever the Cholesky factorization succeeds, the variance
computed by `VIPLayerInducing.forward` — and identically by
`SparseGP.forward` — equals `diagonal(Kf)` plus the projection through `A` of
`SK = q_sqrt·q_sqrtᵀ − Ku` (the unpacked lower-triangular factor times its
transpose, in that order, minus the once-jittered inducing covariance), for
every input batch and parameter state. -/
theorem c2_variance_matrix_form :
    (∀ (S N M D : ℕ) (f : Fin S → Fin (N + M) → Fin D → ℝ) (tri : ℕ → Fin D → ℝ)
      (Lu : Fin D → Matrix (Fin M) (Fin M) ℝ),
      choleskySpec Lu (KuJOf f) →
      ∀ (n : Fin N) (d : Fin D),
        varIndCore f tri Lu n d =
          KfOf f d n n +
            (condA (KfuOf f) Lu d * (denseQ M tri d * (denseQ M tri d)ᵀ - KuOf f d) *
              (condA (KfuOf f) Lu d)ᵀ) n n) ∧
    (∀ (N M ind D : ℕ) (logL logA : ℝ) (X : Fin N → Fin ind → ℝ) (Z : Fin M → Fin ind → ℝ)
      (tri : ℕ → Fin D → ℝ) (Lu : Fin D → Matrix (Fin M) (Fin M) ℝ),
      choleskySpec Lu (sKuJ logL logA Z) →
      ∀ (n : Fin N) (d : Fin D),
        varSparseCore logL logA X Z tri Lu n d =
          sKf logL logA X d n n +
            (condA (sKfu logL logA X Z) Lu d *
              (denseQ M tri d * (denseQ M tri d)ᵀ - sKu logL logA Z d) *
              (condA (sKfu logL logA X Z) Lu d)ᵀ) n n) := by
  constructor
  · intro S N M D f tri Lu _h n d
    unfold varIndCore condVarCore
    rw [condDeltaCov_matrix]
  · intro N M ind D logL logA X Z tri Lu _h n d
    unfold varSparseCore condVarCore
    rw [condDeltaCov_matrix]

theorem empMean_fC2 : ∀ p : Fin (1 + 2), empMean fC2 p 0 = ![2, 2, 0] p := by
  intro p
  fin_cases p <;> simp [empMean, fC2, Fin.sum_univ_three] <;> norm_num

theorem phiOf_fC2 : ∀ (s : Fin 3) (p : Fin (1 + 2)),
    phiOf fC2 s p 0 = (![![(-1 : ℝ), -1, 0], ![0, 0, 0], ![1, 1, 0]] s p) / Real.sqrt 2 := by
  intro s p
  unfold phiOf
  rw [empMean_fC2, phiDenom_three]
  fin_cases s <;> fin_cases p <;> norm_num [fC2]

theorem empK_fC2 : ∀ p q : Fin (1 + 2),
    empK fC2 p q 0 = if (p : ℕ) ≤ 1 ∧ (q : ℕ) ≤ 1 then 1 else 0 := by
  have key : ∀ a b : ℝ, a / Real.sqrt 2 * (b / Real.sqrt 2) = a * b / 2 := by
    intro a b
    rw [div_mul_div_comm, Real.mul_self_sqrt (by norm_num)]
  intro p q
  unfold empK
  simp only [Fin.sum_univ_three, phiOf_fC2, key]
  fin_cases p <;> fin_cases q <;> norm_num [Matrix.vecHead, Matrix.vecTail]

theorem aC2_pos : 0 < aC2 := by norm_num [aC2, jitterA, jitterB]

theorem gC2_pos : 0 < gC2 := by norm_num [gC2, jitterA, jitterB]

theorem KuOf_fC2 : KuOf fC2 0 = Matrix.diagonal ![1 + jitterA, jitterA] := by
  ext m1 m2
  fin_cases m1 <;> fin_cases m2 <;>
    norm_num [KuOf, Matrix.add_apply, Matrix.smul_apply, Matrix.one_apply, empK_fC2,
      Matrix.diagonal, Fin.natAdd]

theorem KuJOf_fC2 : KuJOf fC2 0 = Matrix.diagonal ![aC2, gC2] := by
  unfold KuJOf
  rw [KuOf_fC2]
  ext m1 m2
  fin_cases m1 <;> fin_cases m2 <;>
    norm_num [Matrix.add_apply, Matrix.smul_apply, Matrix.one_apply, Matrix.diagonal,
      aC2, gC2] <;> ring

theorem chol_LuC2 : choleskySpec LuC2 (KuJOf fC2) := by
  intro d
  have hd : d = 0 := Fin.eq_zero d
  subst hd
  refine ⟨fun i j hij => Matrix.diagonal_apply_ne _ (ne_of_lt hij), fun i => ?_, ?_⟩
  · fin_cases i <;>
      simpa [LuC2, Matrix.diagonal_apply_eq] using
        Real.sqrt_pos.mpr (by first | exact aC2_pos | exact gC2_pos)
  · rw [KuJOf_fC2]
    unfold LuC2
    rw [Matrix.diagonal_transpose, Matrix.diagonal_mul_diagonal]
    ext i j
    fin_cases i <;> fin_cases j <;>
      simp [Matrix.diagonal_apply, Real.mul_self_sqrt aC2_pos.le,
        Real.mul_self_sqrt gC2_pos.le]

theorem sKuJ_C2s : sKuJ 0 0 ZC2s (0 : Fin 1) = Matrix.diagonal ![aC2] := by
  ext i j
  fin_cases i <;> fin_cases j <;>
    simp [sKuJ, sKu, kernelSE, ZC2s, Matrix.add_apply, Matrix.smul_apply, Matrix.one_apply,
      Matrix.diagonal, aC2] <;> ring

theorem chol_LuC2s : choleskySpec LuC2s (sKuJ 0 0 ZC2s) := by
  intro d
  have hd : d = 0 := Fin.eq_zero d
  subst hd
  refine ⟨fun i j hij => Matrix.diagonal_apply_ne _ (ne_of_lt hij), fun i => ?_, ?_⟩
  · fin_cases i <;>
      simpa [LuC2s, Matrix.diagonal_apply_eq] using Real.sqrt_pos.mpr aC2_pos
  · rw [sKuJ_C2s]
    unfold LuC2s
    rw [Matrix.diagonal_transpose, Matrix.diagonal_mul_diagonal]
    ext i j
    fin_cases i <;> fin_cases j <;>
      simp [Matrix.diagonal_apply, Real.mul_self_sqrt aC2_pos.le]

theorem condA_eq_inv {N M D : ℕ} (Kfu : Fin D → Matrix (Fin N) (Fin M) ℝ)
    (Lu K : Fin D → Matrix (Fin M) (Fin M) ℝ) (h : ∀ d, Lu d * (Lu d)ᵀ = K d) (d : Fin D) :
    condA Kfu Lu d = Kfu d * (K d)⁻¹ := by
  unfold condA
  rw [Matrix.mul_assoc, ← Matrix.mul_inv_rev, h]

theorem inv_diagC2 : (Matrix.diagonal ![aC2, gC2])⁻¹ = Matrix.diagonal ![aC2⁻¹, gC2⁻¹] := by
  apply Matrix.inv_eq_right_inv
  rw [Matrix.diagonal_mul_diagonal]
  ext i j
  fin_cases i <;> fin_cases j <;>
    simp [Matrix.diagonal, Matrix.one_apply, mul_inv_cancel₀ aC2_pos.ne',
      mul_inv_cancel₀ gC2_pos.ne']

theorem KfuOf_fC2 : ∀ m : Fin 2, KfuOf fC2 0 0 m = ![1, 0] m := by
  intro m
  fin_cases m <;>
    norm_num [KfuOf, empK_fC2, Fin.natAdd, Fin.castAdd, Fin.castLE]

theorem KfOf_fC2 : KfOf fC2 0 0 0 = 1 + jitterA := by
  norm_num [KfOf, empK_fC2, Matrix.add_apply, Matrix.smul_apply, Matrix.one_apply,
    Fin.castAdd, Fin.castLE]

theorem condA_fC2 : ∀ m : Fin 2, condA (KfuOf fC2) LuC2 0 0 m = ![aC2⁻¹, 0] m := by
  intro m
  rw [condA_eq_inv (KfuOf fC2) LuC2 (KuJOf fC2) (fun d => (chol_LuC2 d).2.2) 0]
  rw [KuJOf_fC2, inv_diagC2]
  fin_cases m <;>
    simp [Matrix.mul_apply, Fin.sum_univ_two, KfuOf_fC2, Matrix.diagonal]

theorem denseQ_triC2 : ∀ n m : Fin 2, denseQ 2 triC2 0 n m = ![![1, 0], ![1, 1]] n m := by
  intro n m
  fin_cases n <;> fin_cases m <;> rfl

theorem varIndCore_fC2 :
    varIndCore fC2 triC2 LuC2 0 0 = 1 + jitterA - jitterA * (aC2⁻¹ * aC2⁻¹) := by
  unfold varIndCore condVarCore condDeltaCov condB condSK
  rw [KfOf_fC2]
  simp only [Fin.sum_univ_two, condA_fC2, denseQ_triC2, KuOf_fC2, Matrix.of_apply]
  norm_num [Matrix.diagonal_apply, Matrix.vecHead, Matrix.vecTail]
  ring

theorem specVar_fC2 :
    specVarInducing fC2 triC2 LuC2 0 0 = 1 + jitterA + (1 - jitterA) * (aC2⁻¹ * aC2⁻¹) := by
  unfold specVarInducing
  rw [KfOf_fC2]
  simp only [Matrix.mul_apply, Matrix.transpose_apply, Matrix.of_apply, Fin.sum_univ_two,
    condA_fC2, denseQ_triC2, KuOf_fC2]
  norm_num [Matrix.diagonal_apply, Matrix.vecHead, Matrix.vecTail]
  ring

/-- C2 counterexample: a concrete inducing-layer state (one data point, two
inducing points, three joint samples, packed factor `(1,1,1)`) on which the
Cholesky factorization succeeds, yet the variance the code returns differs
from the claimed formula with `SK = q_sqrtᵀ·q_sqrt − Ku`: the code computes
`SK = q_sqrt·q_sqrtᵀ − Ku` and the two quadratic forms differ here. -/
theorem c2_counterexample :
    choleskySpec LuC2 (KuJOf fC2) ∧
    varIndCore fC2 triC2 LuC2 0 0 ≠ specVarInducing fC2 triC2 LuC2 0 0 := by
  refine ⟨chol_LuC2, ?_⟩
  rw [varIndCore_fC2, specVar_fC2]
  intro heq
  have hx : 0 < aC2⁻¹ * aC2⁻¹ := mul_pos (inv_pos.mpr aC2_pos) (inv_pos.mpr aC2_pos)
  nlinarith [heq, hx]

/-- C2 witness: the amended statement instantiated at the concrete
inducing-layer state above and at a one-point sparse-GP state with unit
kernel, with both Cholesky hypotheses discharged. -/
theorem c2_witness :
    (choleskySpec LuC2 (KuJOf fC2) ∧
      varIndCore fC2 triC2 LuC2 0 0 =
        KfOf fC2 0 0 0 +
          (condA (KfuOf fC2) LuC2 0 * (denseQ 2 triC2 0 * (denseQ 2 triC2 0)ᵀ - KuOf fC2 0) *
            (condA (KfuOf fC2) LuC2 0)ᵀ) 0 0) ∧
    (choleskySpec LuC2s (sKuJ 0 0 ZC2s) ∧
      varSparseCore 0 0 ZC2s ZC2s (fun _ _ => 1) LuC2s 0 0 =
        sKf 0 0 ZC2s (0 : Fin 1) 0 0 +
          (condA (sKfu 0 0 ZC2s ZC2s) LuC2s 0 *
            (denseQ 1 (fun _ _ => 1) (0 : Fin 1) * (denseQ 1 (fun _ _ => 1) (0 : Fin 1))ᵀ -
              sKu 0 0 ZC2s (0 : Fin 1)) *
            (condA (sKfu 0 0 ZC2s ZC2s) LuC2s 0)ᵀ) 0 0) :=
  ⟨⟨chol_LuC2, c2_variance_matrix_form.1 3 1 2 1 fC2 triC2 LuC2 chol_LuC2 0 0⟩,
   ⟨chol_LuC2s, c2_variance_matrix_form.2 1 1 1 1 0 0 ZC2s ZC2s (fun _ _ => 1) LuC2s chol_LuC2s 0 0⟩⟩

end DVIP
